import Mathlib

/-!
# Verification of the PDF RAG pipeline (Next.js + Supabase pgvector)

Shallow embedding of the repository's ingestion-and-retrieval pipeline:

* `search_document_chunks` (supabase_schema.sql): filter by a similarity
  floor, order by pgvector cosine distance, `LIMIT match_count`;
* the ask/search route (`POST`, vector search): question guard, default
  `top_k`, embedding + RPC call, error/empty handling;
* the hybrid ingest route (`POST`): file/extension guards, Python
  extraction collaborator, batch embedding, single batch insert;
* `EmbeddingService` (src/lib/embedding.ts): input truncation, batch
  embedding, promise-guarded lazy one-time initialization;
* the ask-stream route (`GET`): SSE proxy with terminal error events.

JS strings are modelled as `List Char`, vectors as `List ℚ`.  External
collaborators (the transformer model, the Python extraction backend, the
text-generation backend) appear as explicit parameters of the routes.
-/

namespace PdfRag

/-- JS string model: a sequence of characters. -/
abbrev Str := List Char

/-- `String.prototype.trim()` on the model: drop leading and trailing
whitespace.  Used only through emptiness tests (`!question?.trim()`). -/
def jsTrim (s : Str) : Str :=
  ((s.dropWhile Char.isWhitespace).reverse.dropWhile Char.isWhitespace).reverse

/-! ## Vector-store records and cosine similarity

Mirrors the `document_chunks` table of `supabase_schema.sql`:
`(id, doc_id, content, source_name, chunk_index, embedding)`; the JSONB
`metadata` column and the timestamps are not involved in any claim. -/

/-- A row of the `document_chunks` table. -/
structure Rec where
  id : Str
  doc_id : Str
  content : Str
  source_name : Str
  chunk_index : Nat
  embedding : List ℚ
deriving DecidableEq, Repr

/-- Dot product of two vectors (pointwise product, then sum). -/
def dot (a b : List ℚ) : ℚ := (List.zipWith (· * ·) a b).sum

/-- pgvector's cosine distance `embedding <=> query` for unit-normalized
vectors: `1 - dot product` (the Embedder normalizes every vector, so the
norms in the cosine formula are 1). -/
def cosDist (r : Rec) (q : List ℚ) : ℚ := 1 - dot r.embedding q

/-- The `similarity` column the SQL function returns:
`1 - (embedding <=> query_embedding)`. -/
def simOf (r : Rec) (q : List ℚ) : ℚ := 1 - cosDist r q

/-- The `ORDER BY document_chunks.embedding <=> query_embedding` relation:
ascending cosine distance. -/
def distLe (q : List ℚ) (a b : Rec) : Prop := cosDist a q ≤ cosDist b q

instance (q : List ℚ) : DecidableRel (distLe q) := fun a b =>
  inferInstanceAs (Decidable (cosDist a q ≤ cosDist b q))

/-- Semantics of `search_document_chunks(query_embedding, match_threshold,
match_count)`:

    SELECT ..., 1 - (embedding <=> query_embedding) AS similarity
    FROM document_chunks
    WHERE 1 - (embedding <=> query_embedding) > match_threshold
    ORDER BY embedding <=> query_embedding
    LIMIT match_count

SQL `ORDER BY` fixes only the distance order; the relative order of
equal-distance rows is unspecified, so the function is modelled as a
relation: `out` is a possible result iff it is the `match_count`-prefix of
some distance-sorted permutation of the rows that clear the threshold.
`LIMIT k` for non-negative `k` keeps `k.toNat` rows. -/
def validSearchOutput (store : List Rec) (qv : List ℚ) (floor : ℚ)
    (k : Int) (out : List Rec) : Prop :=
  ∃ l : List Rec,
    (store.filter (fun r => decide (floor < simOf r qv))).Perm l ∧
    l.Sorted (distLe qv) ∧ out = l.take k.toNat

/-- Executable reference realization of `validSearchOutput` (insertion sort
picks one distance-sorted permutation); used to instantiate the search
collaborator in concrete runs. -/
def searchImpl (store : List Rec) (qv : List ℚ) (floor : ℚ) (k : Int) :
    List Rec :=
  ((store.filter (fun r => decide (floor < simOf r qv))).insertionSort
    (distLe qv)).take k.toNat

/-- The tie-break ordering the spec claims for search results: descending
similarity with ties broken by ascending chunk index. -/
def specTieOrder (q : List ℚ) (a b : Rec) : Prop :=
  simOf b q < simOf a q ∨ (simOf a q = simOf b q ∧ a.chunk_index ≤ b.chunk_index)

/-- Two equal-similarity chunks of one document; used to show that the SQL
imposes no chunk-index tie-break. -/
def recTieA : Rec := ⟨['a'], ['d'], ['x'], ['s'], 0, [1]⟩

/-- Companion record to `recTieA` with the next chunk index and the same
embedding, hence the same similarity for every query. -/
def recTieB : Rec := ⟨['b'], ['d'], ['y'], ['s'], 1, [1]⟩

/-! ## The ask/search route (`POST`, vector search)

The route parses `{ question, top_k = 5 }`, rejects a missing or
whitespace-only question with HTTP 400 before computing anything, embeds
the question, calls the `search_document_chunks` RPC with threshold `0.1`
and `match_count = top_k`, maps an RPC error to HTTP 500 and a (possibly
empty) result list to an `ok: true` 200 response. -/

/-- Parsed JSON body of an ask request: `question` and `top_k` are both
optional fields. -/
structure AskBody where
  question : Option Str
  top_k : Option Int
deriving DecidableEq

/-- Observable outcome of one ask/search request: the HTTP response
(status, `ok`, `results`) plus whether the embedding and the vector search
were invoked and which `match_count` was passed to the search. -/
structure AskOut where
  status : Nat
  ok : Bool
  results : List Rec
  embedCalled : Bool
  searchCalled : Bool
  searchK : Option Int
deriving DecidableEq

/-- The ask/search route.  `embed` is `generateEmbedding` (the question
embedder); `search` is the `search_document_chunks` RPC, which either
fails (`searchError`, mapped to HTTP 500) or returns rows.  `body = none`
models a request whose JSON failed to parse (the `catch` path, HTTP
500). -/
def askRoute (embed : Str → List ℚ)
    (search : List ℚ → ℚ → Int → Except Str (List Rec))
    (body : Option AskBody) : AskOut :=
  match body with
  | none => ⟨500, false, [], false, false, none⟩
  | some b =>
    match b.question with
    | none => ⟨400, false, [], false, false, none⟩
    | some q =>
      if jsTrim q = [] then ⟨400, false, [], false, false, none⟩
      else
        let k := b.top_k.getD 5
        match search (embed q) (1/10) k with
        | .error _ => ⟨500, false, [], true, true, some k⟩
        | .ok rs => ⟨200, true, rs, true, true, some k⟩

/-! ## The hybrid ingest route (`POST`)

Guards: no file, or a file whose lowercased name does not end in `.pdf`,
are rejected with HTTP 400 before the Python extraction backend, the
embedder, or the store is touched.  Extraction failures surface before
any store write.  All chunk rows are written by one batch
`insert(chunkData)` call, which commits atomically (a single PostgREST
statement): on failure the route reports HTTP 500 and performs no further
store operation — in particular no delete. -/

/-- A store write operation issued by the ingest route (the optional
`user_documents` bookkeeping table is out of scope). -/
inductive StoreOp where
  | insertChunks (rows : List Rec)
  | deleteDoc (docId : Str)
deriving DecidableEq

/-- Behavior of the Python extraction collaborator for one request. -/
inductive PyBackend where
  | unreachable
  | httpFail (status : Nat)
  | badResult
  | ok (chunks : List Str) (pageCount : Nat)

/-- Observable outcome of one ingest request: HTTP response, resulting
store contents, the store operations attempted, and which stages ran. -/
structure IngestOut where
  status : Nat
  ok : Bool
  docIdOut : Option Str
  chunkCount : Nat
  store : List Rec
  ops : List StoreOp
  pyCalled : Bool
  embedCalled : Bool

/-- The literal suffix `".pdf"`. -/
def pdfSuffix : Str := ['.', 'p', 'd', 'f']

/-- `file.name.toLowerCase().endsWith(".pdf")`. -/
def endsWithPdf (name : Str) : Bool :=
  pdfSuffix.isSuffixOf (name.map Char.toLower)

/-- The `chunkData` rows built by the ingest route: row `i` has id
`docId + "_" + i`, the chunk text, the file name, chunk index `i`, and the
embedding of chunk `i` (`generateEmbeddings` is order-preserving, so
`embeddings[index]` is the embedding of `chunks[index]`). -/
def chunkRows (docId : Str) (fileName : Str) (embed : Str → List ℚ)
    (chunks : List Str) : List Rec :=
  chunks.mapIdx fun i c =>
    ⟨docId ++ '_' :: (Nat.repr i).data, docId, c, fileName, i, embed c⟩

/-- The hybrid ingest route.  `py` is the Python extraction collaborator's
behavior, `embed` the chunk embedder, `docId` the fresh uuid, `insertOk`
whether the single batch insert commits, `file` the uploaded file's name
(`none` when no file was sent), `store` the prior table contents. -/
def ingestRoute (py : PyBackend) (embed : Str → List ℚ) (docId : Str)
    (insertOk : Bool) (file : Option Str) (store : List Rec) : IngestOut :=
  match file with
  | none => ⟨400, false, none, 0, store, [], false, false⟩
  | some name =>
    if ¬ endsWithPdf name then ⟨400, false, none, 0, store, [], false, false⟩
    else
      match py with
      | .unreachable => ⟨500, false, none, 0, store, [], true, false⟩
      | .httpFail s => ⟨s, false, none, 0, store, [], true, false⟩
      | .badResult => ⟨400, false, none, 0, store, [], true, false⟩
      | .ok chunks _pages =>
        if chunks = [] then ⟨400, false, none, 0, store, [], true, false⟩
        else
          let rows := chunkRows docId name embed chunks
          if insertOk then
            ⟨200, true, some docId, chunks.length, store ++ rows,
              [.insertChunks rows], true, true⟩
          else
            ⟨500, false, none, 0, store, [.insertChunks rows], true, true⟩

/-! ## The embedding service (src/lib/embedding.ts)

`generateEmbedding` truncates its input to 2000 characters and hands the
result to the transformer model (`pooling: mean, normalize: true`);
`generateEmbeddings` maps it over the batch, one output per input, in
order.  The model itself is an external collaborator, passed as a
function. -/

/-- `text.length > 2000 ? text.substring(0, 2000) : text`. -/
def truncatedText (t : Str) : Str :=
  if 2000 < t.length then t.take 2000 else t

/-- `generateEmbedding`: encode the truncated text with the model. -/
def generateEmbedding (model : Str → List ℚ) (t : Str) : List ℚ :=
  model (truncatedText t)

/-- `generateEmbeddings`: embed each text of the batch in order. -/
def generateEmbeddings (model : Str → List ℚ) (texts : List Str) :
    List (List ℚ) :=
  texts.map (generateEmbedding model)

/-- L2-normalized vector: its dot product with itself is 1. -/
def isUnitVec (v : List ℚ) : Prop := dot v v = 1

/-- A concrete 384-dimensional unit vector `(1, 0, …, 0)`. -/
def e384 : List ℚ := 1 :: List.replicate 383 0

/-! ## Lazy one-time initialization of the embedding model

`EmbeddingService.initialize` guards `_initialize()` with the
`embedder`/`isInitializing`/`initPromise` fields.  JS is single-threaded:
every synchronous block between `await` points runs atomically, so the
system is modelled as a transition system whose steps are exactly those
blocks.  Callers are anonymous; the state tracks, per pending promise id,
who owns the `try/finally` (started the init) and who merely joined
(`return this.initPromise`). -/

/-- Model state of the embedding service plus its in-flight callers.
`embedderSet` is `this.embedder !== null`, `isInitializing` and
`initPromise` are the fields of the class, `inFlight` holds ids of
initialization promises started and not yet settled, `settledIds` the ids
already settled, `owners`/`joiners` the promise ids awaited by callers
that started resp. joined an initialization, and `successfulInits` counts
completed model loads. -/
structure EmbedSys where
  embedderSet : Bool
  isInitializing : Bool
  initPromise : Option Nat
  inFlight : List Nat
  settledIds : List Nat
  nextId : Nat
  owners : List Nat
  joiners : List Nat
  successfulInits : Nat
deriving DecidableEq, Repr

/-- Fresh process: nothing initialized, no callers. -/
def initialSys : EmbedSys := ⟨false, false, none, [], [], 0, [], [], 0⟩

/-- Atomic steps of `initialize()` and of the model-load promise.
* `call_ready`: `if (this.embedder) return` — no state change;
* `call_join`: `if (this.isInitializing) return this.initPromise` — the
  caller awaits the existing promise;
* `call_join_none`: same branch when `initPromise` is `null` (the caller
  resolves immediately; unreachable, as the invariant shows);
* `call_start`: `isInitializing = true; initPromise = this._initialize()`
  — runs synchronously up to the first `await`, so the model load is now
  in flight and the caller awaits it inside `try/finally`;
* `settle_ok`/`settle_err`: the model-load promise settles (on success
  `this.embedder` is assigned before `_initialize` returns);
* `resume_owner`: the starting caller resumes after its `await` and runs
  `finally { this.isInitializing = false }`;
* `resume_join`: a joining caller resumes. -/
inductive EmbedStep : EmbedSys → EmbedSys → Prop where
  | call_ready (s : EmbedSys) (h : s.embedderSet = true) : EmbedStep s s
  | call_join (s : EmbedSys) (p : Nat) (he : s.embedderSet = false)
      (hi : s.isInitializing = true) (hp : s.initPromise = some p) :
      EmbedStep s { s with joiners := p :: s.joiners }
  | call_join_none (s : EmbedSys) (he : s.embedderSet = false)
      (hi : s.isInitializing = true) (hp : s.initPromise = none) :
      EmbedStep s s
  | call_start (s : EmbedSys) (he : s.embedderSet = false)
      (hi : s.isInitializing = false) :
      EmbedStep s { s with
                    isInitializing := true,
                    initPromise := some s.nextId,
                    inFlight := s.nextId :: s.inFlight,
                    owners := s.nextId :: s.owners,
                    nextId := s.nextId + 1 }
  | settle_ok (s : EmbedSys) (p : Nat) (hp : p ∈ s.inFlight) :
      EmbedStep s { s with
                    embedderSet := true,
                    inFlight := s.inFlight.erase p,
                    settledIds := p :: s.settledIds,
                    successfulInits := s.successfulInits + 1 }
  | settle_err (s : EmbedSys) (p : Nat) (hp : p ∈ s.inFlight) :
      EmbedStep s { s with
                    inFlight := s.inFlight.erase p,
                    settledIds := p :: s.settledIds }
  | resume_owner (s : EmbedSys) (p : Nat) (ho : p ∈ s.owners)
      (hs : p ∈ s.settledIds) :
      EmbedStep s { s with
                    owners := s.owners.erase p,
                    isInitializing := false }
  | resume_join (s : EmbedSys) (p : Nat) (hj : p ∈ s.joiners)
      (hs : p ∈ s.settledIds) :
      EmbedStep s { s with joiners := s.joiners.erase p }

/-- States reachable from a fresh process. -/
inductive EmbedReachable : EmbedSys → Prop where
  | init : EmbedReachable initialSys
  | step {s s' : EmbedSys} : EmbedReachable s → EmbedStep s s' →
      EmbedReachable s'

/-- Inductive invariant of the lazy-initialization protocol. -/
structure EmbedInv (s : EmbedSys) : Prop where
  atMostOneInFlight : s.inFlight.length ≤ 1
  inFlightInitializing : ∀ p ∈ s.inFlight, s.isInitializing = true
  inFlightPromise : ∀ p ∈ s.inFlight, s.initPromise = some p
  readyNoInFlight : s.embedderSet = true → s.inFlight = []
  successCount : s.successfulInits = if s.embedderSet then 1 else 0
  ownersClosed : ∀ p ∈ s.owners, p ∈ s.inFlight ∨ p ∈ s.settledIds
  joinersClosed : ∀ p ∈ s.joiners, p ∈ s.inFlight ∨ p ∈ s.settledIds
  idleNoOwners : s.isInitializing = false → s.owners = []
  atMostOneOwner : s.owners.length ≤ 1
  inFlightNotSettled : ∀ p ∈ s.inFlight, p ∉ s.settledIds
  inFlightOwned : ∀ p ∈ s.inFlight, p ∈ s.owners
  idsFresh : ∀ p, p ∈ s.inFlight ∨ p ∈ s.settledIds → p < s.nextId
  promiseClosed : ∀ p, s.initPromise = some p →
    p ∈ s.inFlight ∨ p ∈ s.settledIds

/-! ## The ask-stream route (`GET`, SSE proxy)

The route rejects a missing/whitespace question with HTTP 400, then
proxies the generation collaborator: an unreachable backend, a non-OK
response, or a missing body yields a stream holding exactly one error
event; a body that breaks mid-stream yields the chunks delivered so far
followed by exactly one error event; an intact body is forwarded
unchanged. -/

/-- An SSE event as emitted by the route: a forwarded content chunk or a
terminal error event with a message. -/
inductive SseEvent where
  | content (chunk : Str)
  | error (msg : Str)
deriving DecidableEq, Repr

/-- Is this event an error event? -/
def SseEvent.isError : SseEvent → Bool
  | .content _ => false
  | .error _ => true

/-- Behavior of the generation collaborator for one ask-stream request:
unreachable (`fetch` throws), an HTTP error response, a response without a
readable body, or a stream that delivers `delivered` chunks and then
either breaks (`broken = true`) or ends normally. -/
inductive GenBackend where
  | unreachable
  | httpError (status : Nat)
  | noBody
  | stream (delivered : List Str) (broken : Bool)
deriving DecidableEq, Repr

/-- Did the collaborator fail before or during streaming? -/
def genFails : GenBackend → Bool
  | .unreachable => true
  | .httpError _ => true
  | .noBody => true
  | .stream _ broken => broken

/-- The chunks the route forwarded before the failure/end. -/
def deliveredOf : GenBackend → List Str
  | .stream ds _ => ds
  | _ => []

/-- The error message the route attaches to the terminal error event in
each failure case. -/
def failMsg : GenBackend → Str
  | .unreachable => ("streaming response failed").data
  | .httpError s => ("python backend error ").data ++ (Nat.repr s).data
  | .noBody => ("stream unreadable").data
  | .stream _ _ => ("stream proxy error").data

/-- Result of one ask-stream request: an HTTP 400 rejection, or an SSE
stream given by its finite event sequence. -/
inductive StreamResult where
  | badRequest
  | events (evs : List SseEvent)
deriving DecidableEq, Repr

/-- The ask-stream route. -/
def askStreamRoute (question : Option Str) (b : GenBackend) : StreamResult :=
  match question with
  | none => .badRequest
  | some q =>
    if jsTrim q = [] then .badRequest
    else
      match b with
      | .unreachable => .events [.error (failMsg .unreachable)]
      | .httpError s => .events [.error (failMsg (.httpError s))]
      | .noBody => .events [.error (failMsg .noBody)]
      | .stream ds broken =>
          .events (ds.map SseEvent.content ++
            if broken then [.error (failMsg (.stream ds broken))] else [])

/-! ## Concrete instances used by witnesses and counterexamples -/

/-- A trivial embedder collaborator used in concrete runs. -/
def wEmbed : Str → List ℚ := fun _ => [1]

/-- A search collaborator that returns the single row `recTieA`. -/
def wSearchOne : List ℚ → ℚ → Int → Except Str (List Rec) :=
  fun _ _ _ => .ok [recTieA]

/-- A search collaborator over the empty store: always zero rows
(`LIMIT 0` included). -/
def wSearchEmpty : List ℚ → ℚ → Int → Except Str (List Rec) :=
  fun _ _ _ => .ok []

/-- The question `"hi"`. -/
def wQuestion : Str := ['h', 'i']

/-- A whitespace-only question. -/
def wBlank : Str := [' ', ' ']

/-- A fresh document id used in concrete ingest runs. -/
def wDocId : Str := ['d', '1']

/-- The uploaded file name `"a.pdf"`. -/
def wPdfName : Str := ['a', '.', 'p', 'd', 'f']

/-- The uploaded file name `"a.txt"`. -/
def wTxtName : Str := ['a', '.', 't', 'x', 't']

/-- A transformer-model collaborator that returns the concrete unit
vector `e384` for every input. -/
def wModel : Str → List ℚ := fun _ => e384

/-- A concrete reachable state of the lazy-initialization system: one
caller has started the model load (promise id 0, still in flight) and a
second caller has joined it. -/
def wSys : EmbedSys := ⟨false, true, some 0, [0], [], 1, [0], [0], 0⟩

/-! ## Helper lemmas -/

/-- The executable search realizes the relational semantics. -/
theorem searchImpl_valid (store : List Rec) (qv : List ℚ) (floor : ℚ)
    (k : Int) :
    validSearchOutput store qv floor k (searchImpl store qv floor k) := by
  refine ⟨(store.filter (fun r => decide (floor < simOf r qv))).insertionSort
    (distLe qv), ?_, ?_, rfl⟩
  · exact (List.perm_insertionSort _ _).symm
  · haveI : IsTotal Rec (distLe qv) := ⟨fun a b => le_total _ _⟩
    haveI : IsTrans Rec (distLe qv) := ⟨fun _ _ _ h h' => le_trans h h'⟩
    exact List.sorted_insertionSort _ _

/-- Distance-ascending order implies similarity-descending order:
`similarity = 1 - distance`. -/
theorem simOf_antitone_of_distLe {q : List ℚ} {a b : Rec}
    (h : distLe q a b) : simOf b q ≤ simOf a q := by
  simp only [simOf]
  have hd : cosDist a q ≤ cosDist b q := h
  linarith

/-- A list of length at most one containing `a` is `[a]`. -/
theorem eq_singleton_of_length_le_one {α : Type} {l : List α} {a : α}
    (hlen : l.length ≤ 1) (ha : a ∈ l) : l = [a] := by
  match l, ha with
  | [x], h => simp_all
  | x :: y :: t, _ => simp at hlen

/-- Membership in a valid search output forces membership in the
floor-filtered store. -/
theorem mem_filter_of_mem_validSearchOutput {store : List Rec}
    {qv : List ℚ} {floor : ℚ} {k : Int} {out : List Rec}
    (h : validSearchOutput store qv floor k out) {r : Rec} (hr : r ∈ out) :
    r ∈ store ∧ floor < simOf r qv := by
  obtain ⟨l, hperm, _, rfl⟩ := h
  have hl : r ∈ l := List.mem_of_mem_take hr
  have : r ∈ store.filter (fun r => decide (floor < simOf r qv)) :=
    (hperm.mem_iff).mpr hl
  simpa using List.mem_filter.mp this

/-! ## C2 — retrieval ordering -/

/-- C2 (amended): every possible output of `search_document_chunks` is
sorted by descending similarity (the `ORDER BY` is on cosine distance and
`similarity = 1 - distance`); the relative order of equal-similarity rows
is unspecified. -/
theorem search_sorted_desc_similarity (store : List Rec) (qv : List ℚ)
    (floor : ℚ) (k : Int) (out : List Rec)
    (h : validSearchOutput store qv floor k out) :
    out.Sorted (fun a b => simOf b qv ≤ simOf a qv) := by
  obtain ⟨l, _, hsort, rfl⟩ := h
  exact (hsort.sublist (List.take_sublist _ _)).imp
    (fun hab => simOf_antitone_of_distLe hab)

/-- Witness for C2: a concrete store, query and output on which the
sortedness theorem applies. -/
theorem search_sorted_desc_similarity_witness :
    validSearchOutput [recTieA, recTieB] [1] (1/10) 5 [recTieA, recTieB] ∧
    ([recTieA, recTieB].Sorted (fun a b => simOf b [1] ≤ simOf a [1])) := by
  have hv : validSearchOutput [recTieA, recTieB] [1] (1/10) 5
      [recTieA, recTieB] := by
    refine ⟨[recTieA, recTieB], ?_, ?_, rfl⟩
    · norm_num [recTieA, recTieB, simOf, cosDist, dot, List.filter]
    · norm_num [List.sorted_cons, distLe, cosDist, dot, recTieA, recTieB]
  exact ⟨hv, search_sorted_desc_similarity _ _ _ _ _ hv⟩

/-- Counterexample for C2 as stated: with two equal-similarity chunks of
one document, the output listing chunk index 1 before chunk index 0 is a
possible result of `search_document_chunks` (nothing in the SQL breaks
ties by chunk index), yet it is not sorted by the claimed tie-break
order. -/
theorem search_tie_break_counterexample :
    validSearchOutput [recTieA, recTieB] [1] (1/10) 5 [recTieB, recTieA] ∧
    ¬ ([recTieB, recTieA].Sorted (specTieOrder [1])) := by
  constructor
  · refine ⟨[recTieB, recTieA], ?_, ?_, rfl⟩
    · have : ([recTieA, recTieB].filter
          (fun r => decide ((1:ℚ)/10 < simOf r [1]))) = [recTieA, recTieB] := by
        norm_num [recTieA, recTieB, simOf, cosDist, dot, List.filter]
      rw [this]
      exact List.Perm.swap _ _ _
    · norm_num [List.sorted_cons, distLe, cosDist, dot, recTieA, recTieB]
  · norm_num [List.sorted_cons, specTieOrder, simOf, cosDist, dot,
      recTieA, recTieB]

/-! ## C3 — similarity floor, cardinality, empty-result success -/

/-- C3: with a valid (non-blank) question, when the RPC succeeds with a
result permitted by the search semantics at threshold `0.1` and
`match_count = top_k` (default 5): at most `top_k` matches are returned,
every returned match clears the floor strictly, rows at or below the
floor are excluded even when fewer than `top_k` rows are returned, the
route answers HTTP 200 with `ok: true`, and when no row clears the floor
the result is the empty list, still reported as success. -/
theorem ask_search_floor_topk (embed : Str → List ℚ)
    (search : List ℚ → ℚ → Int → Except Str (List Rec))
    (q : Str) (tk : Option Int) (store out : List Rec)
    (hq : jsTrim q ≠ [])
    (hs : search (embed q) (1/10) (tk.getD 5) = Except.ok out)
    (hv : validSearchOutput store (embed q) (1/10) (tk.getD 5) out) :
    out.length ≤ (tk.getD 5).toNat ∧
    (∀ r ∈ out, 1/10 < simOf r (embed q)) ∧
    (∀ r ∈ store, simOf r (embed q) ≤ 1/10 → r ∉ out) ∧
    (askRoute embed search (some ⟨some q, tk⟩) =
      ⟨200, true, out, true, true, some (tk.getD 5)⟩) ∧
    ((∀ r ∈ store, simOf r (embed q) ≤ 1/10) → out = []) := by
  refine ⟨?_, ?_, ?_, ?_, ?_⟩
  · obtain ⟨l, _, _, rfl⟩ := hv
    simp [List.length_take_le]
  · intro r hr
    exact (mem_filter_of_mem_validSearchOutput hv hr).2
  · intro r _ hle hmem
    exact absurd (mem_filter_of_mem_validSearchOutput hv hmem).2
      (not_lt.mpr hle)
  · simp only [askRoute, hq, if_neg hq]
    rw [hs]
    rfl
  · intro hall
    obtain ⟨l, hperm, _, rfl⟩ := hv
    have hfil : store.filter (fun r => decide ((1:ℚ)/10 < simOf r (embed q))) = [] := by
      rw [List.filter_eq_nil_iff]
      intro r hr
      simpa using not_lt.mpr (hall r hr)
    have : l = [] := by
      have := hperm
      rw [hfil] at this
      exact this.symm.eq_nil
    simp [this]

/-- Witness for C3 at a concrete instance: one stored row clearing the
floor, the default `top_k`. -/
theorem ask_search_floor_topk_witness :
    [recTieA].length ≤ (5:Int).toNat ∧
    1/10 < simOf recTieA (wEmbed wQuestion) ∧
    askRoute wEmbed wSearchOne (some ⟨some wQuestion, none⟩) =
      ⟨200, true, [recTieA], true, true, some 5⟩ := by
  have hq : jsTrim wQuestion ≠ [] := by decide
  have hs : wSearchOne (wEmbed wQuestion) (1/10) ((none : Option Int).getD 5) =
      Except.ok [recTieA] := rfl
  have hv : validSearchOutput [recTieA] (wEmbed wQuestion) (1/10)
      ((none : Option Int).getD 5) [recTieA] := by
    refine ⟨[recTieA], ?_, ?_, rfl⟩
    · norm_num [recTieA, wEmbed, simOf, cosDist, dot, List.filter]
    · simp [List.sorted_singleton]
  have h := ask_search_floor_topk wEmbed wSearchOne wQuestion none [recTieA]
    [recTieA] hq hs hv
  exact ⟨h.1, h.2.1 recTieA (by simp), h.2.2.2.1⟩

/-! ## C5 — empty-question rejection -/

/-- C5: on both the ask/search route and the ask-stream route, a missing,
empty, or whitespace-only question is rejected with HTTP 400 before any
stage runs: the ask/search route reports `ok: false` with the embedding
and vector search never invoked, and the ask-stream route returns the 400
rejection instead of a stream. -/
theorem empty_question_rejected (embed : Str → List ℚ)
    (search : List ℚ → ℚ → Int → Except Str (List Rec))
    (b : AskBody) (gb : GenBackend)
    (h : b.question = none ∨ ∃ q, b.question = some q ∧ jsTrim q = []) :
    askRoute embed search (some b) = ⟨400, false, [], false, false, none⟩ ∧
    askStreamRoute b.question gb = .badRequest := by
  obtain hnone | ⟨q, hq, ht⟩ := h
  · constructor
    · simp [askRoute, hnone]
    · simp [askStreamRoute, hnone]
  · constructor
    · simp [askRoute, hq, ht]
    · simp [askStreamRoute, hq, ht]

/-- Witness for C5 at the whitespace-only question `"  "`. -/
theorem empty_question_rejected_witness :
    jsTrim wBlank = [] ∧
    askRoute wEmbed wSearchEmpty (some ⟨some wBlank, none⟩) =
      ⟨400, false, [], false, false, none⟩ ∧
    askStreamRoute (some wBlank) .unreachable = .badRequest := by
  have ht : jsTrim wBlank = [] := by decide
  have h := empty_question_rejected wEmbed wSearchEmpty
    ⟨some wBlank, none⟩ .unreachable (Or.inr ⟨wBlank, rfl, ht⟩)
  exact ⟨ht, h.1, h.2⟩

/-! ## C9 — `top_k` default and (lack of) validation -/

/-- C9 (amended): with a valid question, an omitted `top_k` defaults to 5
and a supplied `top_k` is passed to the vector search unchanged; the route
performs no `top_k ≥ 1` validation. -/
theorem topk_default_and_passthrough (embed : Str → List ℚ)
    (search : List ℚ → ℚ → Int → Except Str (List Rec))
    (q : Str) (tk : Int) (hq : jsTrim q ≠ []) :
    (askRoute embed search (some ⟨some q, none⟩)).searchK = some 5 ∧
    (askRoute embed search (some ⟨some q, some tk⟩)).searchK = some tk := by
  constructor
  · simp only [askRoute, if_neg hq]
    cases search (embed q) (1/10) ((none : Option Int).getD 5) <;> rfl
  · simp only [askRoute, if_neg hq]
    cases search (embed q) (1/10) ((some tk).getD 5) <;> rfl

/-- Witness for C9: default and pass-through at a concrete request. -/
theorem topk_default_and_passthrough_witness :
    (askRoute wEmbed wSearchEmpty (some ⟨some wQuestion, none⟩)).searchK =
      some 5 ∧
    (askRoute wEmbed wSearchEmpty (some ⟨some wQuestion, some 7⟩)).searchK =
      some 7 :=
  topk_default_and_passthrough wEmbed wSearchEmpty wQuestion 7 (by decide)

/-- Counterexample for C9 as stated: `top_k = 0` is below the claimed
minimum of 1, yet the request is accepted and fully processed — the route
embeds the question, issues the search with `match_count = 0` and answers
HTTP 200 with `ok: true` instead of rejecting the value. -/
theorem topk_zero_accepted_counterexample :
    askRoute wEmbed wSearchEmpty (some ⟨some wQuestion, some 0⟩) =
      ⟨200, true, [], true, true, some 0⟩ ∧
    validSearchOutput [] (wEmbed wQuestion) (1/10) 0 [] := by
  constructor
  · rfl
  · exact ⟨[], by simp, by simp, rfl⟩

/-! ## C10 — ingest file-type guard -/

/-- C10: an ingest request with no file, or with a file whose lowercased
name does not end in `".pdf"`, is rejected with HTTP 400 before the
extraction backend, the embedder, or the store is touched: the store is
returned unchanged and no store operation is attempted. -/
theorem ingest_file_guard (py : PyBackend) (embed : Str → List ℚ)
    (docId : Str) (insertOk : Bool) (file : Option Str) (store : List Rec)
    (h : file = none ∨ ∃ name, file = some name ∧ endsWithPdf name = false) :
    ingestRoute py embed docId insertOk file store =
      ⟨400, false, none, 0, store, [], false, false⟩ := by
  obtain rfl | ⟨name, rfl, hn⟩ := h
  · rfl
  · simp [ingestRoute, hn]

/-- Witness for C10 at the non-PDF file name `"a.txt"`. -/
theorem ingest_file_guard_witness :
    endsWithPdf wTxtName = false ∧
    ingestRoute (.ok [wQuestion] 1) wEmbed wDocId true (some wTxtName) [] =
      ⟨400, false, none, 0, [], [], false, false⟩ := by
  have hn : endsWithPdf wTxtName = false := by decide
  exact ⟨hn, ingest_file_guard (.ok [wQuestion] 1) wEmbed wDocId true
    (some wTxtName) [] (Or.inr ⟨wTxtName, rfl, hn⟩)⟩

/-! ## C1 — atomicity of ingest at the store stage -/

/-- Counterexample for C1 as stated: in a concrete ingest run that fails
at the store stage (the batch insert does not commit), the route reports
HTTP 500 but issues no delete for the document id — the claimed
clean-up deletion does not exist in the code. -/
theorem ingest_no_delete_counterexample :
    (ingestRoute (.ok [wQuestion] 1) wEmbed wDocId false (some wPdfName)
      []).status = 500 ∧
    (ingestRoute (.ok [wQuestion] 1) wEmbed wDocId false (some wPdfName)
      []).ok = false ∧
    StoreOp.deleteDoc wDocId ∉
      (ingestRoute (.ok [wQuestion] 1) wEmbed wDocId false (some wPdfName)
        []).ops := by
  refine ⟨rfl, rfl, ?_⟩
  intro hmem
  have hp : endsWithPdf wPdfName = true := by decide
  simp [ingestRoute, chunkRows, hp] at hmem

/-- C1 (amended): if ingest fails at the store stage, the store is left
exactly as it was — the single batch insert commits all chunk rows or
none — so for a fresh document id every possible subsequent search
returns zero matches for that id; the failure is reported as HTTP 500
with `ok: false`.  The orchestrator achieves this atomically, without any
clean-up deletion. -/
theorem ingest_store_failure_atomic (py : PyBackend)
    (embed : Str → List ℚ) (docId : Str) (file : Option Str)
    (store : List Rec) (hfresh : ∀ r ∈ store, r.doc_id ≠ docId) :
    (ingestRoute py embed docId false file store).store = store ∧
    (∀ qv floor k out,
      validSearchOutput (ingestRoute py embed docId false file store).store
        qv floor k out → ∀ r ∈ out, r.doc_id ≠ docId) ∧
    (∀ name chunks pages, file = some name → endsWithPdf name = true →
      py = .ok chunks pages → chunks ≠ [] →
      (ingestRoute py embed docId false file store).status = 500 ∧
      (ingestRoute py embed docId false file store).ok = false) := by
  have hstore : (ingestRoute py embed docId false file store).store = store := by
    cases file with
    | none => rfl
    | some name =>
      by_cases hn : endsWithPdf name
      · cases py with
        | unreachable => simp [ingestRoute, hn]
        | httpFail s => simp [ingestRoute, hn]
        | badResult => simp [ingestRoute, hn]
        | ok chunks pages =>
          by_cases hc : chunks = []
          · simp [ingestRoute, hn, hc]
          · simp [ingestRoute, hn, hc]
      · simp [ingestRoute, hn]
  refine ⟨hstore, ?_, ?_⟩
  · intro qv floor k out hv r hr
    rw [hstore] at hv
    exact hfresh r (mem_filter_of_mem_validSearchOutput hv hr).1
  · rintro name chunks pages rfl hn rfl hc
    constructor <;> simp [ingestRoute, hn, hc]

/-- Witness for C1 (amended) at a concrete failing run. -/
theorem ingest_store_failure_atomic_witness :
    (ingestRoute (.ok [wQuestion] 1) wEmbed wDocId false (some wPdfName)
      []).store = [] ∧
    (ingestRoute (.ok [wQuestion] 1) wEmbed wDocId false (some wPdfName)
      []).status = 500 ∧
    (ingestRoute (.ok [wQuestion] 1) wEmbed wDocId false (some wPdfName)
      []).ok = false := by
  have h := ingest_store_failure_atomic (.ok [wQuestion] 1) wEmbed wDocId
    (some wPdfName) [] (by simp)
  have h3 := h.2.2 wPdfName [wQuestion] 1 rfl (by decide) rfl (by decide)
  exact ⟨h.1, h3.1, h3.2⟩

/-! ## C6 — input truncation in `generateEmbedding` -/

/-- C6: `generateEmbedding` encodes a text of length at most the fixed
2000-character budget: a longer input is silently truncated to its
2000-character prefix (and still encoded, not rejected), while an input
within the budget is passed to the model unchanged. -/
theorem embedder_truncation (model : Str → List ℚ) (t : Str) :
    (truncatedText t).length ≤ 2000 ∧
    (truncatedText t).IsPrefix t ∧
    (t.length ≤ 2000 → truncatedText t = t) ∧
    (2000 < t.length → truncatedText t = t.take 2000) ∧
    generateEmbedding model t = model (truncatedText t) := by
  by_cases hl : 2000 < t.length
  · refine ⟨?_, ?_, ?_, fun _ => ?_, rfl⟩
    · simp [truncatedText, hl, List.length_take]
    · simp [truncatedText, hl, List.take_prefix]
    · intro hle
      omega
    · simp [truncatedText, hl]
  · refine ⟨?_, ?_, fun _ => ?_, fun hgt => absurd hgt hl, rfl⟩
    · simp [truncatedText, hl]
      omega
    · simp [truncatedText, hl]
    · simp [truncatedText, hl]

/-- Witness for C6: the short input `"hi"` is passed through unchanged. -/
theorem embedder_truncation_witness :
    wQuestion.length ≤ 2000 ∧ truncatedText wQuestion = wQuestion :=
  ⟨by decide, (embedder_truncation wModel wQuestion).2.2.1 (by decide)⟩

/-! ## C7 — batch embedding contract -/

/-- The all-zero vector is orthogonal to itself. -/
theorem dot_replicate_zero (n : Nat) :
    dot (List.replicate n (0:ℚ)) (List.replicate n 0) = 0 := by
  induction n with
  | zero => rfl
  | succ n ih =>
    have h : dot (List.replicate (n + 1) (0:ℚ)) (List.replicate (n + 1) 0) =
        0 * 0 + dot (List.replicate n 0) (List.replicate n 0) := rfl
    rw [h, ih]
    ring

/-- `e384` is a unit vector. -/
theorem isUnitVec_e384 : isUnitVec e384 := by
  show dot e384 e384 = 1
  have h : dot e384 e384 =
      1 * 1 + dot (List.replicate 383 (0:ℚ)) (List.replicate 383 0) := rfl
  rw [h, dot_replicate_zero]
  ring

/-- `e384` has dimension 384. -/
theorem length_e384 : e384.length = 384 := by
  show ((1:ℚ) :: List.replicate 383 0).length = 384
  rw [List.length_cons, List.length_replicate]

/-- C7: when the transformer model honors its contract (normalized
384-dimensional outputs, as requested via `normalize: true`),
`generateEmbeddings` returns exactly one vector per input text, in input
order (the i-th output is the embedding of the i-th input), and every
output is an L2-normalized unit vector of dimension 384. -/
theorem embedder_batch_contract (model : Str → List ℚ) (texts : List Str)
    (hm : ∀ t, (model t).length = 384 ∧ isUnitVec (model t)) :
    (generateEmbeddings model texts).length = texts.length ∧
    (∀ i : Nat, (generateEmbeddings model texts)[i]? =
      (texts[i]?).map (generateEmbedding model)) ∧
    (∀ v ∈ generateEmbeddings model texts, v.length = 384 ∧ isUnitVec v) := by
  refine ⟨List.length_map _ _, fun i => List.getElem?_map _ _ _, ?_⟩
  intro v hv
  obtain ⟨t, _, rfl⟩ := List.mem_map.mp hv
  exact hm (truncatedText t)

/-- Witness for C7 with the concrete model `wModel` on a two-text
batch. -/
theorem embedder_batch_contract_witness :
    (generateEmbeddings wModel [wQuestion, wBlank]).length = 2 ∧
    (generateEmbeddings wModel [wQuestion, wBlank])[0]? =
      some (generateEmbedding wModel wQuestion) ∧
    (generateEmbedding wModel wQuestion).length = 384 ∧
    isUnitVec (generateEmbedding wModel wQuestion) := by
  have h := embedder_batch_contract wModel [wQuestion, wBlank]
    (fun t => ⟨length_e384, isUnitVec_e384⟩)
  refine ⟨h.1, ?_, ?_, ?_⟩
  · have := h.2.1 0
    simpa using this
  · exact (h.2.2 _ (by simp [generateEmbeddings])).1
  · exact (h.2.2 _ (by simp [generateEmbeddings])).2

/-! ## C4 — lazy one-time initialization of the embedding model -/

/-- The invariant holds in a fresh process. -/
theorem embedInv_initial : EmbedInv initialSys := by
  constructor <;> simp [initialSys]

/-- Every step of the protocol preserves the invariant. -/
theorem embedInv_step {s s' : EmbedSys} (hst : EmbedStep s s')
    (inv : EmbedInv s) : EmbedInv s' := by
  cases hst with
  | call_ready h => exact inv
  | call_join_none he hii hp => exact inv
  | call_join p he hii hp =>
    refine ⟨inv.atMostOneInFlight, inv.inFlightInitializing,
      inv.inFlightPromise, inv.readyNoInFlight, inv.successCount,
      inv.ownersClosed, ?_, inv.idleNoOwners, inv.atMostOneOwner,
      inv.inFlightNotSettled, inv.inFlightOwned, inv.idsFresh,
      inv.promiseClosed⟩
    intro q hq
    rcases List.mem_cons.mp hq with rfl | hq
    · exact inv.promiseClosed q hp
    · exact inv.joinersClosed q hq
  | call_start he hii =>
    have hIF : s.inFlight = [] := by
      cases hif : s.inFlight with
      | nil => rfl
      | cons q t =>
        have hq := inv.inFlightInitializing q
          (by rw [hif]; exact List.mem_cons_self q t)
        rw [hii] at hq
        cases hq
    have hOW : s.owners = [] := inv.idleNoOwners hii
    refine ⟨?_, ?_, ?_, ?_, ?_, ?_, ?_, ?_, ?_, ?_, ?_, ?_, ?_⟩
    · show (s.nextId :: s.inFlight).length ≤ 1
      rw [hIF]
      exact le_refl 1
    · intro q _
      rfl
    · intro q hq
      show some s.nextId = some q
      rw [hIF] at hq
      rw [List.mem_singleton.mp hq]
    · intro h
      rw [show s.embedderSet = false from he] at h
      cases h
    · show s.successfulInits = if s.embedderSet then 1 else 0
      exact inv.successCount
    · intro q hq
      show q ∈ s.nextId :: s.inFlight ∨ q ∈ s.settledIds
      rcases List.mem_cons.mp hq with rfl | hq
      · exact Or.inl (List.mem_cons_self _ _)
      · rw [hOW] at hq
        cases hq
    · intro q hq
      show q ∈ s.nextId :: s.inFlight ∨ q ∈ s.settledIds
      rcases inv.joinersClosed q hq with h | h
      · rw [hIF] at h
        cases h
      · exact Or.inr h
    · intro h
      cases h
    · show (s.nextId :: s.owners).length ≤ 1
      rw [hOW]
      exact le_refl 1
    · intro q hq hqs
      rw [hIF] at hq
      rw [List.mem_singleton.mp hq] at hqs
      exact absurd (inv.idsFresh s.nextId (Or.inr hqs)) (lt_irrefl _)
    · intro q hq
      show q ∈ s.nextId :: s.owners
      rw [hIF] at hq
      rw [List.mem_singleton.mp hq]
      exact List.mem_cons_self _ _
    · intro q hq
      show q < s.nextId + 1
      rcases hq with hq | hq
      · rw [hIF] at hq
        rw [List.mem_singleton.mp hq]
        exact Nat.lt_succ_self _
      · exact Nat.lt_succ_of_lt (inv.idsFresh q (Or.inr hq))
    · intro q hq
      show q ∈ s.nextId :: s.inFlight ∨ q ∈ s.settledIds
      have : s.nextId = q := by
        have := hq
        injection this
      rw [← this]
      exact Or.inl (List.mem_cons_self _ _)
  | settle_ok p hp =>
    have hone : s.inFlight = [p] :=
      eq_singleton_of_length_le_one inv.atMostOneInFlight hp
    have herase : s.inFlight.erase p = [] := by
      rw [hone, List.erase_cons_head]
    have hset : s.embedderSet = false := by
      cases hb : s.embedderSet with
      | false => rfl
      | true =>
        have := inv.readyNoInFlight hb
        rw [this] at hp
        cases hp
    refine ⟨?_, ?_, ?_, ?_, ?_, ?_, ?_, ?_, ?_, ?_, ?_, ?_, ?_⟩
    · show (s.inFlight.erase p).length ≤ 1
      rw [herase]
      exact Nat.zero_le 1
    · intro q hq
      rw [herase] at hq
      cases hq
    · intro q hq
      rw [herase] at hq
      cases hq
    · intro _
      exact herase
    · show s.successfulInits + 1 = if true then 1 else 0
      rw [inv.successCount, hset]
      rfl
    · intro q hq
      show q ∈ s.inFlight.erase p ∨ q ∈ p :: s.settledIds
      rcases inv.ownersClosed q hq with h | h
      · rw [hone] at h
        rw [List.mem_singleton.mp h]
        exact Or.inr (List.mem_cons_self _ _)
      · exact Or.inr (List.mem_cons_of_mem _ h)
    · intro q hq
      show q ∈ s.inFlight.erase p ∨ q ∈ p :: s.settledIds
      rcases inv.joinersClosed q hq with h | h
      · rw [hone] at h
        rw [List.mem_singleton.mp h]
        exact Or.inr (List.mem_cons_self _ _)
      · exact Or.inr (List.mem_cons_of_mem _ h)
    · exact inv.idleNoOwners
    · exact inv.atMostOneOwner
    · intro q hq
      rw [herase] at hq
      cases hq
    · intro q hq
      rw [herase] at hq
      cases hq
    · intro q hq
      show q < s.nextId
      rcases hq with hq | hq
      · rw [herase] at hq
        cases hq
      · rcases List.mem_cons.mp hq with rfl | hq
        · exact inv.idsFresh q (Or.inl hp)
        · exact inv.idsFresh q (Or.inr hq)
    · intro q hq
      show q ∈ s.inFlight.erase p ∨ q ∈ p :: s.settledIds
      rcases inv.promiseClosed q hq with h | h
      · rw [hone] at h
        rw [List.mem_singleton.mp h]
        exact Or.inr (List.mem_cons_self _ _)
      · exact Or.inr (List.mem_cons_of_mem _ h)
  | settle_err p hp =>
    have hone : s.inFlight = [p] :=
      eq_singleton_of_length_le_one inv.atMostOneInFlight hp
    have herase : s.inFlight.erase p = [] := by
      rw [hone, List.erase_cons_head]
    refine ⟨?_, ?_, ?_, ?_, ?_, ?_, ?_, ?_, ?_, ?_, ?_, ?_, ?_⟩
    · show (s.inFlight.erase p).length ≤ 1
      rw [herase]
      exact Nat.zero_le 1
    · intro q hq
      rw [herase] at hq
      cases hq
    · intro q hq
      rw [herase] at hq
      cases hq
    · intro _
      exact herase
    · exact inv.successCount
    · intro q hq
      show q ∈ s.inFlight.erase p ∨ q ∈ p :: s.settledIds
      rcases inv.ownersClosed q hq with h | h
      · rw [hone] at h
        rw [List.mem_singleton.mp h]
        exact Or.inr (List.mem_cons_self _ _)
      · exact Or.inr (List.mem_cons_of_mem _ h)
    · intro q hq
      show q ∈ s.inFlight.erase p ∨ q ∈ p :: s.settledIds
      rcases inv.joinersClosed q hq with h | h
      · rw [hone] at h
        rw [List.mem_singleton.mp h]
        exact Or.inr (List.mem_cons_self _ _)
      · exact Or.inr (List.mem_cons_of_mem _ h)
    · exact inv.idleNoOwners
    · exact inv.atMostOneOwner
    · intro q hq
      rw [herase] at hq
      cases hq
    · intro q hq
      rw [herase] at hq
      cases hq
    · intro q hq
      show q < s.nextId
      rcases hq with hq | hq
      · rw [herase] at hq
        cases hq
      · rcases List.mem_cons.mp hq with rfl | hq
        · exact inv.idsFresh q (Or.inl hp)
        · exact inv.idsFresh q (Or.inr hq)
    · intro q hq
      show q ∈ s.inFlight.erase p ∨ q ∈ p :: s.settledIds
      rcases inv.promiseClosed q hq with h | h
      · rw [hone] at h
        rw [List.mem_singleton.mp h]
        exact Or.inr (List.mem_cons_self _ _)
      · exact Or.inr (List.mem_cons_of_mem _ h)
  | resume_owner p ho hsett =>
    have howners : s.owners = [p] :=
      eq_singleton_of_length_le_one inv.atMostOneOwner ho
    have hIF : s.inFlight = [] := by
      cases hif : s.inFlight with
      | nil => rfl
      | cons q t =>
        have hq : q ∈ s.inFlight := by
          rw [hif]
          exact List.mem_cons_self q t
        have hqo : q ∈ s.owners := inv.inFlightOwned q hq
        rw [howners] at hqo
        rw [List.mem_singleton.mp hqo] at hq
        exact absurd hsett (inv.inFlightNotSettled p hq)
    refine ⟨inv.atMostOneInFlight, ?_, inv.inFlightPromise,
      inv.readyNoInFlight, inv.successCount, ?_, inv.joinersClosed,
      ?_, ?_, inv.inFlightNotSettled, ?_, inv.idsFresh,
      inv.promiseClosed⟩
    · intro q hq
      rw [hIF] at hq
      cases hq
    · intro q hq
      exact inv.ownersClosed q (List.mem_of_mem_erase hq)
    · intro _
      show s.owners.erase p = []
      rw [howners, List.erase_cons_head]
    · show (s.owners.erase p).length ≤ 1
      rw [howners, List.erase_cons_head]
      exact Nat.zero_le 1
    · intro q hq
      rw [hIF] at hq
      cases hq
  | resume_join p hj hsett =>
    refine ⟨inv.atMostOneInFlight, inv.inFlightInitializing,
      inv.inFlightPromise, inv.readyNoInFlight, inv.successCount,
      inv.ownersClosed, ?_, inv.idleNoOwners, inv.atMostOneOwner,
      inv.inFlightNotSettled, inv.inFlightOwned, inv.idsFresh,
      inv.promiseClosed⟩
    intro q hq
    exact inv.joinersClosed q (List.mem_of_mem_erase hq)

/-- Every reachable state of the initialization protocol satisfies the
invariant. -/
theorem embed_reachable_inv {s : EmbedSys} (h : EmbedReachable s) :
    EmbedInv s := by
  induction h with
  | init => exact embedInv_initial
  | step _ hstep ih => exact embedInv_step hstep ih

/-- C4: in every reachable state of the lazy-initialization protocol, at
most one model initialization is in flight, the model has been
successfully initialized at most once, and any two callers awaiting a
not-yet-settled initialization promise await the same one (later
concurrent callers join the single in-flight initialization instead of
starting their own). -/
theorem lazy_init_single (s : EmbedSys) (h : EmbedReachable s) :
    s.inFlight.length ≤ 1 ∧
    s.successfulInits ≤ 1 ∧
    (∀ p q, (p ∈ s.owners ∨ p ∈ s.joiners) → (q ∈ s.owners ∨ q ∈ s.joiners) →
      p ∉ s.settledIds → q ∉ s.settledIds → p = q) := by
  have inv := embed_reachable_inv h
  refine ⟨inv.atMostOneInFlight, ?_, ?_⟩
  · rw [inv.successCount]
    cases s.embedderSet <;> simp
  · intro p q hp hq hps hqs
    have hpin : p ∈ s.inFlight := by
      rcases hp with h' | h'
      · rcases inv.ownersClosed p h' with h'' | h''
        · exact h''
        · exact absurd h'' hps
      · rcases inv.joinersClosed p h' with h'' | h''
        · exact h''
        · exact absurd h'' hps
    have hqin : q ∈ s.inFlight := by
      rcases hq with h' | h'
      · rcases inv.ownersClosed q h' with h'' | h''
        · exact h''
        · exact absurd h'' hqs
      · rcases inv.joinersClosed q h' with h'' | h''
        · exact h''
        · exact absurd h'' hqs
    rw [eq_singleton_of_length_le_one inv.atMostOneInFlight hpin] at hqin
    exact (List.mem_singleton.mp hqin).symm

/-- Witness for C4: the state `wSys` — one initialization started, a
second caller joined — is reachable, and the theorem's conclusions hold
there. -/
theorem lazy_init_single_witness :
    EmbedReachable wSys ∧ wSys.inFlight.length ≤ 1 ∧
    wSys.successfulInits ≤ 1 := by
  have hr : EmbedReachable wSys :=
    EmbedReachable.step
      (EmbedReachable.step EmbedReachable.init
        (EmbedStep.call_start initialSys rfl rfl))
      (EmbedStep.call_join _ 0 rfl rfl rfl)
  have h := lazy_init_single wSys hr
  exact ⟨hr, h.1, h.2.1⟩

/-! ## C8 — terminal error event on generation failure -/

/-- Forwarded content chunks contribute no error events. -/
theorem filter_isError_map_content (ds : List Str) :
    (ds.map SseEvent.content).filter SseEvent.isError = [] := by
  rw [List.filter_eq_nil_iff]
  intro a ha
  obtain ⟨c, _, rfl⟩ := List.mem_map.mp ha
  simp [SseEvent.isError]

/-- C8: for a valid ask-stream request, whenever the generation
collaborator fails — unreachable, HTTP error, unreadable body, or a break
during streaming — the emitted stream is exactly the already-delivered
content chunks (not retracted) followed by one terminal error event
carrying a message: the error event is last, nothing follows it, and it
is the only error event of the stream. -/
theorem stream_failure_terminal (q : Str) (b : GenBackend)
    (hq : jsTrim q ≠ []) (hb : genFails b = true) :
    askStreamRoute (some q) b =
      .events ((deliveredOf b).map SseEvent.content ++
        [.error (failMsg b)]) ∧
    ((deliveredOf b).map SseEvent.content ++
      [SseEvent.error (failMsg b)]).getLast? = some (.error (failMsg b)) ∧
    ((deliveredOf b).map SseEvent.content ++
      [SseEvent.error (failMsg b)]).dropLast =
      (deliveredOf b).map SseEvent.content ∧
    (((deliveredOf b).map SseEvent.content ++
      [SseEvent.error (failMsg b)]).filter SseEvent.isError).length = 1 := by
  refine ⟨?_, ?_, ?_, ?_⟩
  · cases b with
    | unreachable => simp [askStreamRoute, hq, deliveredOf]
    | httpError s => simp [askStreamRoute, hq, deliveredOf]
    | noBody => simp [askStreamRoute, hq, deliveredOf]
    | stream ds broken =>
      have : broken = true := hb
      subst this
      simp [askStreamRoute, hq, deliveredOf]
  · exact List.getLast?_concat _
  · exact List.dropLast_concat ..
  · rw [List.filter_append, filter_isError_map_content]
    rfl

/-- Witness for C8 at a concrete mid-stream break: one chunk was
delivered, then the proxy read fails. -/
theorem stream_failure_terminal_witness :
    jsTrim wQuestion ≠ [] ∧
    genFails (GenBackend.stream [wBlank] true) = true ∧
    askStreamRoute (some wQuestion) (.stream [wBlank] true) =
      .events [.content wBlank,
        .error (failMsg (.stream [wBlank] true))] := by
  have hq : jsTrim wQuestion ≠ [] := by decide
  have h := (stream_failure_terminal wQuestion (.stream [wBlank] true)
    hq rfl).1
  exact ⟨hq, rfl, by simpa [deliveredOf] using h⟩

end PdfRag
